import Mathlib

/-
Verification of the vue-sherpa tour/onboarding library.

The development shallowly embeds the two logical components of the library:

* the overlay cutout path generator (`useOverlay`: `generateOverlayPath`,
  `calculatePath`, `show`, `hide`, `refresh`), a pure geometry / string
  generation routine over the viewport and a target rectangle;
* the tour sequencer (`useTour`: `setStep`, `updateTarget` and the control
  operations `start`, `next`, `previous`, `goTo`, `skip`, `stop`, `pause`,
  `resume`, `complete`), a small state machine with lifecycle callbacks.

JS numbers are modelled as rationals (ℚ); all arithmetic the library performs
on them (add, subtract, halve, min, max, compare) is exact on the inputs
considered, so no floating point rounding is observable.  Callback invocations
and other externally visible actions are recorded as events in a trace, in
the order the source performs them; the asynchronous `await`s of the source
suspend but do not reorder these actions, so a sequential trace is faithful.
-/

namespace Sherpa

/-! ## Overlay path generator (source: useOverlay) -/

/-- A DOMRect as the overlay consumes it: x, y, width, height in viewport
coordinates. -/
structure Rect where
  x : ℚ
  y : ℚ
  width : ℚ
  height : ℚ
deriving DecidableEq

/-- Rendering of a numeric value into an SVG path string, as the source's JS
template literals do.  Every number the library interpolates into a path at
the inputs evaluated here is integral, and JS prints an integral double with
no decimal point, matching `toString q.num`; a non-integral value is rendered
as num/den in place of JS's decimal expansion (no claim evaluates one). -/
def ratStr (q : ℚ) : String :=
  if q.den = 1 then toString q.num else toString q.num ++ "/" ++ toString q.den

/-- The clamped corner radius computed at the top of `generateOverlayPath`:
`maxRadius = Math.min(width / 2, height / 2)` and
`r = Math.max(0, Math.min(radius, maxRadius))`. -/
def effectiveRadius (radius width height : ℚ) : ℚ :=
  max 0 (min radius (min (width / 2) (height / 2)))

/-- `generateOverlayPath(viewportWidth, viewportHeight, x, y, width, height,
radius)`: outer clockwise viewport rectangle, then the inner rounded-rectangle
cutout; the two sub-paths are joined with a single space.  Mirrors the JS
template literals character for character. -/
def generateOverlayPath (viewportWidth viewportHeight x y width height radius : ℚ) :
    String :=
  let r := effectiveRadius radius width height
  let outer :=
    "M" ++ ratStr viewportWidth ++ ",0 L0,0 L0," ++ ratStr viewportHeight ++
    " L" ++ ratStr viewportWidth ++ "," ++ ratStr viewportHeight ++
    " L" ++ ratStr viewportWidth ++ ",0 Z"
  let inner :=
    if 0 < r then
      "M" ++ ratStr (x + r) ++ "," ++ ratStr y ++ " " ++
      "h" ++ ratStr (width - 2 * r) ++ " " ++
      "a" ++ ratStr r ++ "," ++ ratStr r ++ " 0 0 1 " ++ ratStr r ++ "," ++ ratStr r ++ " " ++
      "v" ++ ratStr (height - 2 * r) ++ " " ++
      "a" ++ ratStr r ++ "," ++ ratStr r ++ " 0 0 1 -" ++ ratStr r ++ "," ++ ratStr r ++ " " ++
      "h-" ++ ratStr (width - 2 * r) ++ " " ++
      "a" ++ ratStr r ++ "," ++ ratStr r ++ " 0 0 1 -" ++ ratStr r ++ ",-" ++ ratStr r ++ " " ++
      "v-" ++ ratStr (height - 2 * r) ++ " " ++
      "a" ++ ratStr r ++ "," ++ ratStr r ++ " 0 0 1 " ++ ratStr r ++ ",-" ++ ratStr r ++ " " ++
      "Z"
    else
      "M" ++ ratStr x ++ "," ++ ratStr y ++ " " ++
      "h" ++ ratStr width ++ " " ++
      "v" ++ ratStr height ++ " " ++
      "h-" ++ ratStr width ++ " " ++
      "v-" ++ ratStr height ++ " " ++
      "Z"
  outer ++ " " ++ inner

/-- Partial `OverlayOptions` as callers pass them: absent fields are `none`. -/
structure OverlayOptions where
  padding : Option ℚ
  radius : Option ℚ
  opacity : Option ℚ
  color : Option String
  animate : Option Bool
  animationDuration : Option ℚ
deriving DecidableEq

/-- `Required<OverlayOptions>`: every field present. -/
structure OverlayOptionsFull where
  padding : ℚ
  radius : ℚ
  opacity : ℚ
  color : String
  animate : Bool
  animationDuration : ℚ
deriving DecidableEq

/-- The initial `currentOptions` of `useOverlay`. -/
def defaultOverlayOptions : OverlayOptionsFull :=
  ⟨8, 4, 3 / 4, "black", true, 300⟩

/-- The empty partial options object `{}` (the default argument). -/
def noOpts : OverlayOptions :=
  ⟨none, none, none, none, none, none⟩

/-- JS spread merge `{ ...currentOptions, ...options }`: a field given in
`options` overrides, an absent one keeps the stored value. -/
def mergeOptions (cur : OverlayOptionsFull) (o : OverlayOptions) : OverlayOptionsFull :=
  ⟨o.padding.getD cur.padding,
   o.radius.getD cur.radius,
   o.opacity.getD cur.opacity,
   o.color.getD cur.color,
   o.animate.getD cur.animate,
   o.animationDuration.getD cur.animationDuration⟩

/-- The mutable cells of one `useOverlay()` instance. -/
structure OverlayState where
  path : String
  isVisible : Bool
  currentOptions : OverlayOptionsFull
  currentTargetRect : Option Rect
deriving DecidableEq

/-- State of a freshly created `useOverlay()`. -/
def initialOverlay : OverlayState :=
  ⟨"", false, defaultOverlayOptions, none⟩

/-- `calculatePath`: `x = Math.max(0, targetRect.x - padding)`. -/
def cutoutX (padding : ℚ) (rect : Rect) : ℚ :=
  max 0 (rect.x - padding)

/-- `calculatePath`: `y = Math.max(0, targetRect.y - padding)`. -/
def cutoutY (padding : ℚ) (rect : Rect) : ℚ :=
  max 0 (rect.y - padding)

/-- `calculatePath`:
`width = Math.max(0, Math.min(targetRect.width + padding * 2, viewportW - x))`. -/
def cutoutWidth (viewportW padding : ℚ) (rect : Rect) : ℚ :=
  max 0 (min (rect.width + padding * 2) (viewportW - cutoutX padding rect))

/-- `calculatePath`:
`height = Math.max(0, Math.min(targetRect.height + padding * 2, viewportH - y))`. -/
def cutoutHeight (viewportH padding : ℚ) (rect : Rect) : ℚ :=
  max 0 (min (rect.height + padding * 2) (viewportH - cutoutY padding rect))

/-- `calculatePath(targetRect, options)`: merge options, clamp the padded
cutout to the viewport, store the rect, and write the path (empty when the
rect is null or the clamped cutout is degenerate).  The viewport comes from
`window.innerWidth` / `window.innerHeight`, passed here as parameters. -/
def calculatePath (viewportW viewportH : ℚ) (st : OverlayState)
    (targetRect : Option Rect) (options : OverlayOptions) : OverlayState :=
  let merged := mergeOptions st.currentOptions options
  match targetRect with
  | none => { st with currentOptions := merged, path := "" }
  | some rect =>
    let padding := merged.padding
    let radius := merged.radius
    let x := cutoutX padding rect
    let y := cutoutY padding rect
    let width := cutoutWidth viewportW padding rect
    let height := cutoutHeight viewportH padding rect
    if width ≤ 0 ∨ height ≤ 0 then
      { st with currentOptions := merged, currentTargetRect := some rect, path := "" }
    else
      { st with currentOptions := merged, currentTargetRect := some rect,
                path := generateOverlayPath viewportW viewportH x y width height radius }

/-- `show(targetRect, options)`: recompute the path, then mark visible
(source name `show`, a Lean keyword). -/
def showOverlay (viewportW viewportH : ℚ) (st : OverlayState) (rect : Rect)
    (options : OverlayOptions) : OverlayState :=
  { calculatePath viewportW viewportH st (some rect) options with isVisible := true }

/-- `hide()`: mark invisible and discard the stored rect; the path cell is
left as it was. -/
def hideOverlay (st : OverlayState) : OverlayState :=
  { st with isVisible := false, currentTargetRect := none }

/-- `refresh(targetRect, options)`: recompute only while visible. -/
def refreshOverlay (viewportW viewportH : ℚ) (st : OverlayState) (rect : Rect)
    (options : OverlayOptions) : OverlayState :=
  if st.isVisible then calculatePath viewportW viewportH st (some rect) options else st

/-- Clamp as the spec words it: `clamp(value, lo, hi)`, the value forced into
the interval `[lo, hi]`.  Stated from the spec, to be compared with the
source's `effectiveRadius`. -/
def clampSpec (value lo hi : ℚ) : ℚ :=
  min (max value lo) hi

/-! ## Tour sequencer (source: useTour) -/

/-- A DOM element as the sequencer observes it: `getBoundingClientRect`
yields its rectangle.  The document is static during a transition, so an
element is characterised by that measurement. -/
structure Elem where
  rect : Rect
deriving DecidableEq

/-- One tour step.  A callback field records whether the user supplied the
callback (`onBeforeShow` etc. are invoked only when present); `resolved` is
the outcome of `resolveTarget` for this step against the document (a selector
lookup or the user's resolver function), and `autoAdvance` the optional delay
in milliseconds. -/
structure TourStep where
  id : String
  resolved : Option Elem
  hasBeforeShow : Bool
  hasAfterShow : Bool
  hasBeforeHide : Bool
  hasAfterHide : Bool
  autoAdvance : Option ℚ
deriving DecidableEq

/-- Direction reported to `onStepChange`. -/
inductive Direction where
  | next
  | previous
deriving DecidableEq

/-- The externally visible actions of the sequencer, in the order it performs
them: per-step lifecycle callbacks, the index commit, target resolution, the
tour-level callbacks, and the scheduling of an auto-advance timer. -/
inductive TourEvent where
  | beforeHide (id : String)
  | beforeShow (id : String)
  | commit (index : Int)
  | resolve (id : String)
  | afterHide (id : String)
  | afterShow (id : String)
  | stepChange (id : String) (dir : Direction)
  | autoSchedule (index : Int) (delay : ℚ)
  | tourStart
  | tourComplete
  | tourSkip
deriving DecidableEq

/-- The tour configuration: the fixed step list and, for each optional
tour-level callback, whether the user supplied it.  The remaining options
(keyboard navigation, scroll behaviour, ...) only affect the event listeners
and DOM effects, not the state or traces the claims are about. -/
structure TourOptions where
  steps : List TourStep
  hasStart : Bool
  hasComplete : Bool
  hasSkip : Bool
  hasStepChange : Bool
deriving DecidableEq

/-- `TourStatus`. -/
inductive TourStatus where
  | idle
  | active
  | paused
  | completed
deriving DecidableEq

/-- The mutable cells of one `useTour()` instance (`status`,
`currentStepIndex`, `targetElement`, `targetRect`); everything else of
`TourState` is computed from these and the options. -/
structure TourState where
  status : TourStatus
  currentStepIndex : Int
  targetElement : Option Elem
  targetRect : Option Rect
deriving DecidableEq

/-- The initial state: `status = 'idle'`, `currentStepIndex = -1`, no
target. -/
def initialTour : TourState :=
  ⟨.idle, -1, none, none⟩

/-- JS array subscript `steps[i]` for a possibly out-of-range or negative
index: `undefined` becomes `none`. -/
def listGetInt {α : Type} (l : List α) (i : Int) : Option α :=
  if 0 ≤ i then l[i.toNat]? else none

/-- The computed `currentStep`:
`currentStepIndex >= 0 && currentStepIndex < opts.steps.length ?
 opts.steps[currentStepIndex] : null`. -/
def currentStep (steps : List TourStep) (st : TourState) : Option TourStep :=
  if 0 ≤ st.currentStepIndex ∧ st.currentStepIndex < (steps.length : Int) then
    listGetInt steps st.currentStepIndex
  else none

/-- The computed `isFirstStep`: `currentStepIndex === 0`. -/
def isFirstStep (st : TourState) : Bool :=
  st.currentStepIndex = 0

/-- The computed `isLastStep`: `currentStepIndex === steps.length - 1`. -/
def isLastStep (steps : List TourStep) (st : TourState) : Bool :=
  st.currentStepIndex = (steps.length : Int) - 1

/-- `updateTarget()`: clear both target cells when there is no current step;
otherwise resolve the step's target and set `targetElement`, and on success
measure the rectangle (the scroll-into-view re-measure returns the same
rectangle in a static document). -/
def updateTarget (steps : List TourStep) (st : TourState) : TourState :=
  match currentStep steps st with
  | none => { st with targetElement := none, targetRect := none }
  | some step =>
    match step.resolved with
    | some el => { st with targetElement := some el, targetRect := some el.rect }
    | none => { st with targetElement := none, targetRect := none }

/-- `setStep(index, direction)`: no-op when `steps[index]` is undefined;
otherwise await the leaving step's `onBeforeHide`, await the destination's
`onBeforeShow`, commit the index, resolve the target, call `onAfterHide`,
`onAfterShow`, `onStepChange`, and schedule the auto-advance timer when
`autoAdvance > 0`.  The returned trace lists those actions in source order;
the timer itself is modelled by `fireAutoAdvance`. -/
def setStep (opts : TourOptions) (st : TourState) (index : Int)
    (direction : Direction) : TourState × List TourEvent :=
  let prevStep := currentStep opts.steps st
  match listGetInt opts.steps index with
  | none => (st, [])
  | some nextStep =>
    let evBeforeHide :=
      match prevStep with
      | some p => if p.hasBeforeHide then [TourEvent.beforeHide p.id] else []
      | none => []
    let evBeforeShow :=
      if nextStep.hasBeforeShow then [TourEvent.beforeShow nextStep.id] else []
    let st₁ := { st with currentStepIndex := index }
    let st₂ := updateTarget opts.steps st₁
    let evAfterHide :=
      match prevStep with
      | some p => if p.hasAfterHide then [TourEvent.afterHide p.id] else []
      | none => []
    let evAfterShow :=
      if nextStep.hasAfterShow then [TourEvent.afterShow nextStep.id] else []
    let evStepChange :=
      if opts.hasStepChange then [TourEvent.stepChange nextStep.id direction] else []
    let evAuto :=
      match nextStep.autoAdvance with
      | some d => if 0 < d then [TourEvent.autoSchedule index d] else []
      | none => []
    (st₂,
      evBeforeHide ++ evBeforeShow ++
      [TourEvent.commit index] ++ [TourEvent.resolve nextStep.id] ++
      evAfterHide ++ evAfterShow ++ evStepChange ++ evAuto)

namespace Tour

/-- `start(stepIndex = 0)`: no-op on an empty step list; otherwise set
status to `'active'`, run `setStep(stepIndex)` and fire `onStart`. -/
def start (opts : TourOptions) (st : TourState) (stepIndex : Int) :
    TourState × List TourEvent :=
  if opts.steps.length = 0 then (st, [])
  else
    let st₁ := { st with status := TourStatus.active }
    let r := setStep opts st₁ stepIndex Direction.next
    (r.1, r.2 ++ if opts.hasStart then [TourEvent.tourStart] else [])

/-- `stop()`: back to idle, index `-1`, targets cleared, no callback. -/
def stop (st : TourState) : TourState × List TourEvent :=
  (⟨TourStatus.idle, -1, none, none⟩, [])

/-- `complete()`: status `'completed'`, index `-1`, targets cleared, fire
`onComplete`. -/
def complete (opts : TourOptions) (st : TourState) : TourState × List TourEvent :=
  (⟨TourStatus.completed, -1, none, none⟩,
   if opts.hasComplete then [TourEvent.tourComplete] else [])

/-- `next()`: only while active; on the last step delegate to `complete()`,
otherwise `setStep(currentStepIndex + 1, 'next')`. -/
def next (opts : TourOptions) (st : TourState) : TourState × List TourEvent :=
  if st.status ≠ TourStatus.active then (st, [])
  else if isLastStep opts.steps st then complete opts st
  else setStep opts st (st.currentStepIndex + 1) Direction.next

/-- `previous()`: only while active and not on the first step;
`setStep(currentStepIndex - 1, 'previous')`. -/
def previous (opts : TourOptions) (st : TourState) : TourState × List TourEvent :=
  if st.status ≠ TourStatus.active ∨ isFirstStep st then (st, [])
  else setStep opts st (st.currentStepIndex - 1) Direction.previous

/-- JS `Array.prototype.findIndex`: index of the first match, `-1` when
none. -/
def findIndexAux (p : TourStep → Bool) : List TourStep → Int
  | [] => -1
  | s :: rest =>
    if p s then 0
    else
      let r := findIndexAux p rest
      if r = -1 then -1 else r + 1

/-- The predicate `goTo` passes to `findIndex`: `(s) => s.id === stepIndexOrId`. -/
def matchesId (s : String) (t : TourStep) : Bool :=
  t.id = s

/-- The argument of `goTo(stepIndexOrId)`: a number or a step id. -/
inductive StepRef where
  | idx (i : Int)
  | id (s : String)
deriving DecidableEq

/-- `goTo(stepIndexOrId)`: only while active; an id is looked up with
`findIndex` and an absent id returns silently; an in-range index jumps there
with direction `'next'` exactly when the destination is beyond the current
index. -/
def goTo (opts : TourOptions) (st : TourState) (ref : StepRef) :
    TourState × List TourEvent :=
  if st.status ≠ TourStatus.active then (st, [])
  else
    let index? : Option Int :=
      match ref with
      | .id s =>
        let i := findIndexAux (matchesId s) opts.steps
        if i = -1 then none else some i
      | .idx i => some i
    match index? with
    | none => (st, [])
    | some index =>
      if 0 ≤ index ∧ index < (opts.steps.length : Int) then
        let direction :=
          if st.currentStepIndex < index then Direction.next else Direction.previous
        setStep opts st index direction
      else (st, [])

/-- `skip()`: back to idle, index `-1`, targets cleared, fire `onSkip`. -/
def skip (opts : TourOptions) (st : TourState) : TourState × List TourEvent :=
  (⟨TourStatus.idle, -1, none, none⟩,
   if opts.hasSkip then [TourEvent.tourSkip] else [])

/-- `pause()`: active becomes paused. -/
def pause (st : TourState) : TourState × List TourEvent :=
  if st.status = TourStatus.active then
    ({ st with status := TourStatus.paused }, [])
  else (st, [])

/-- `resume()`: paused becomes active. -/
def resume (st : TourState) : TourState × List TourEvent :=
  if st.status = TourStatus.paused then
    ({ st with status := TourStatus.active }, [])
  else (st, [])

end Tour

/-- The auto-advance timer firing `autoAdvance` milliseconds after
`setStep` committed `index`: it calls `next()` only if the tour is still
active and the index unchanged, and otherwise does nothing. -/
def fireAutoAdvance (opts : TourOptions) (st : TourState) (index : Int) :
    TourState × List TourEvent :=
  if st.status = TourStatus.active ∧ st.currentStepIndex = index then
    Tour.next opts st
  else (st, [])

/-- The states reachable from the initial state by the public control
operations. -/
inductive Reachable (opts : TourOptions) : TourState → Prop where
  | init : Reachable opts initialTour
  | start (st : TourState) (i : Int) (h : Reachable opts st) :
      Reachable opts (Tour.start opts st i).1
  | next (st : TourState) (h : Reachable opts st) :
      Reachable opts (Tour.next opts st).1
  | previous (st : TourState) (h : Reachable opts st) :
      Reachable opts (Tour.previous opts st).1
  | goTo (st : TourState) (ref : Tour.StepRef) (h : Reachable opts st) :
      Reachable opts (Tour.goTo opts st ref).1
  | skip (st : TourState) (h : Reachable opts st) :
      Reachable opts (Tour.skip opts st).1
  | stop (st : TourState) (h : Reachable opts st) :
      Reachable opts (Tour.stop st).1
  | pause (st : TourState) (h : Reachable opts st) :
      Reachable opts (Tour.pause st).1
  | resume (st : TourState) (h : Reachable opts st) :
      Reachable opts (Tour.resume st).1
  | complete (st : TourState) (h : Reachable opts st) :
      Reachable opts (Tour.complete opts st).1

/-! ## Concrete fixtures used to instantiate the general theorems -/

/-- A resolvable DOM element. -/
def demoElem : Elem :=
  ⟨⟨10, 10, 100, 20⟩⟩

/-- A step with every lifecycle callback and a 100 ms auto-advance. -/
def demoStep1 : TourStep :=
  ⟨"step1", some demoElem, true, true, true, true, some 100⟩

/-- A plain step. -/
def demoStep2 : TourStep :=
  ⟨"step2", some demoElem, false, false, false, false, none⟩

/-- A step whose target does not resolve. -/
def demoStep3 : TourStep :=
  ⟨"step3", none, false, false, false, false, none⟩

/-- A three-step tour with every tour-level callback supplied. -/
def demoOpts : TourOptions :=
  ⟨[demoStep1, demoStep2, demoStep3], true, true, true, true⟩

/-- A tour configured with no steps. -/
def emptyOpts : TourOptions :=
  ⟨[], true, true, true, true⟩

/-- An active tour sitting on the first step. -/
def demoActive : TourState :=
  ⟨TourStatus.active, 0, none, none⟩

/-! ## Helper lemmas -/

theorem listGetInt_isSome {α : Type} (l : List α) (i : Int)
    (h0 : 0 ≤ i) (hlt : i < (l.length : Int)) : (listGetInt l i).isSome = true := by
  unfold listGetInt
  rw [if_pos h0]
  have h : i.toNat < l.length := by omega
  simp [List.getElem?_eq_getElem h]

theorem listGetInt_eq_none {α : Type} (l : List α) (i : Int)
    (h : i < 0 ∨ (l.length : Int) ≤ i) : listGetInt l i = none := by
  unfold listGetInt
  rcases h with h | h
  · rw [if_neg (by omega)]
  · rw [if_pos (by omega)]
    exact List.getElem?_eq_none (by omega)

theorem updateTarget_currentStepIndex (steps : List TourStep) (st : TourState) :
    (updateTarget steps st).currentStepIndex = st.currentStepIndex := by
  unfold updateTarget
  split
  · rfl
  · split <;> rfl

theorem updateTarget_status (steps : List TourStep) (st : TourState) :
    (updateTarget steps st).status = st.status := by
  unfold updateTarget
  split
  · rfl
  · split <;> rfl

theorem updateTarget_targetInv (steps : List TourStep) (st : TourState) :
    (updateTarget steps st).targetRect.isSome = true →
      (updateTarget steps st).targetElement.isSome = true := by
  unfold updateTarget
  split
  · simp
  · split <;> simp

theorem setStep_of_none (opts : TourOptions) (st : TourState) (index : Int)
    (direction : Direction) (h : listGetInt opts.steps index = none) :
    setStep opts st index direction = (st, []) := by
  unfold setStep
  rw [h]

theorem setStep_eq_of_some (opts : TourOptions) (st : TourState) (index : Int)
    (direction : Direction) (nextStep : TourStep)
    (h : listGetInt opts.steps index = some nextStep) :
    setStep opts st index direction =
      (updateTarget opts.steps { st with currentStepIndex := index },
        (match currentStep opts.steps st with
          | some p => if p.hasBeforeHide then [TourEvent.beforeHide p.id] else []
          | none => []) ++
        (if nextStep.hasBeforeShow then [TourEvent.beforeShow nextStep.id] else []) ++
        [TourEvent.commit index] ++ [TourEvent.resolve nextStep.id] ++
        (match currentStep opts.steps st with
          | some p => if p.hasAfterHide then [TourEvent.afterHide p.id] else []
          | none => []) ++
        (if nextStep.hasAfterShow then [TourEvent.afterShow nextStep.id] else []) ++
        (if opts.hasStepChange then [TourEvent.stepChange nextStep.id direction] else []) ++
        (match nextStep.autoAdvance with
          | some d => if 0 < d then [TourEvent.autoSchedule index d] else []
          | none => [])) := by
  unfold setStep
  rw [h]

theorem setStep_fst_cases (opts : TourOptions) (st : TourState) (index : Int)
    (direction : Direction) :
    (setStep opts st index direction).1 = st ∨
      (setStep opts st index direction).1 =
        updateTarget opts.steps { st with currentStepIndex := index } := by
  rcases h : listGetInt opts.steps index with _ | nextStep
  · exact Or.inl (by rw [setStep_of_none opts st index direction h])
  · exact Or.inr (by rw [setStep_eq_of_some opts st index direction nextStep h])

theorem setStep_fst_index (opts : TourOptions) (st : TourState) (index : Int)
    (direction : Direction) (nextStep : TourStep)
    (h : listGetInt opts.steps index = some nextStep) :
    (setStep opts st index direction).1.currentStepIndex = index := by
  rw [setStep_eq_of_some opts st index direction nextStep h]
  exact updateTarget_currentStepIndex _ _

theorem setStep_fst_status (opts : TourOptions) (st : TourState) (index : Int)
    (direction : Direction) :
    (setStep opts st index direction).1.status = st.status := by
  rcases setStep_fst_cases opts st index direction with h | h <;> rw [h]
  exact updateTarget_status _ _

theorem currentStep_isSome_iff (steps : List TourStep) (st : TourState) :
    (currentStep steps st).isSome = true ↔
      0 ≤ st.currentStepIndex ∧ st.currentStepIndex < (steps.length : Int) := by
  unfold currentStep
  split
  · rename_i h
    rw [listGetInt_isSome steps st.currentStepIndex h.1 h.2]
    simpa using h
  · rename_i h
    simpa using h

theorem findIndexAux_range (p : TourStep → Bool) :
    ∀ l : List TourStep,
      Tour.findIndexAux p l = -1 ∨
        (0 ≤ Tour.findIndexAux p l ∧ Tour.findIndexAux p l < (l.length : Int))
  | [] => Or.inl rfl
  | s :: rest => by
    unfold Tour.findIndexAux
    split
    · right
      constructor
      · omega
      · simp
    · rcases findIndexAux_range p rest with h | h
      · rw [h]
        left
        rfl
      · rw [if_neg (by omega)]
        right
        simp only [List.length_cons]
        push_cast
        omega

theorem findIndexAux_eq_neg_one (p : TourStep → Bool) (l : List TourStep)
    (h : ∀ t ∈ l, p t = false) : Tour.findIndexAux p l = -1 := by
  induction l with
  | nil => rfl
  | cons s rest ih =>
    unfold Tour.findIndexAux
    rw [if_neg (by simp [h s (List.mem_cons_self s rest)])]
    rw [ih (fun t ht => h t (List.mem_cons_of_mem s ht))]
    rfl

theorem setStep_fst_targetInv (opts : TourOptions) (st : TourState) (index : Int)
    (direction : Direction)
    (ih : st.targetRect.isSome = true → st.targetElement.isSome = true) :
    (setStep opts st index direction).1.targetRect.isSome = true →
      (setStep opts st index direction).1.targetElement.isSome = true := by
  rcases setStep_fst_cases opts st index direction with h | h <;> rw [h]
  · exact ih
  · exact updateTarget_targetInv _ _

theorem reachable_targetInv (opts : TourOptions) (st : TourState)
    (h : Reachable opts st) :
    st.targetRect.isSome = true → st.targetElement.isSome = true := by
  induction h with
  | init => simp [initialTour]
  | start st' i hr ih =>
    unfold Tour.start
    split
    · exact ih
    · exact setStep_fst_targetInv _ _ _ _ ih
  | next st' hr ih =>
    unfold Tour.next
    split
    · exact ih
    · split
      · simp [Tour.complete]
      · exact setStep_fst_targetInv _ _ _ _ ih
  | previous st' hr ih =>
    unfold Tour.previous
    split
    · exact ih
    · exact setStep_fst_targetInv _ _ _ _ ih
  | goTo st' ref hr ih =>
    unfold Tour.goTo
    split
    · exact ih
    · cases ref with
      | idx i =>
        dsimp only
        split
        · exact setStep_fst_targetInv _ _ _ _ ih
        · exact ih
      | id s =>
        dsimp only
        by_cases hc : Tour.findIndexAux (Tour.matchesId s) opts.steps = -1
        · rw [if_pos hc]
          exact ih
        · rw [if_neg hc]
          dsimp only
          split
          · exact setStep_fst_targetInv _ _ _ _ ih
          · exact ih
  | skip st' hr ih => simp [Tour.skip]
  | stop st' hr ih => simp [Tour.stop]
  | pause st' hr ih =>
    unfold Tour.pause
    split
    · exact ih
    · exact ih
  | resume st' hr ih =>
    unfold Tour.resume
    split
    · exact ih
    · exact ih
  | complete st' hr ih => simp [Tour.complete]

/-! ## Claims about the overlay generator -/

/-- Claim C1: for the overlay generator with viewport 1024×768, target
rectangle (x 100, y 100, width 200, height 50), default padding 8 and default
radius 4, `show()` produces a path whose outer sub-path is exactly
"M1024,0 L0,0 L0,768 L1024,768 L1024,0 Z", appearing first in the string, and
whose inner sub-path begins with "M96,92" (x − padding + radius,
y − padding). -/
theorem c1_show_default_path :
    (showOverlay 1024 768 initialOverlay ⟨100, 100, 200, 50⟩ noOpts).path =
      "M1024,0 L0,0 L0,768 L1024,768 L1024,0 Z" ++ " " ++
      ("M96,92" ++
        " h208 a4,4 0 0 1 4,4 v58 a4,4 0 0 1 -4,4 h-208 a4,4 0 0 1 -4,-4 v-58 a4,4 0 0 1 4,-4 Z") := by
  with_unfolding_all rfl

/-- Claim C2: for every target rectangle and options the generator uses the
effective corner radius `clamp(requestedRadius, 0, min(cutoutWidth,
cutoutHeight) / 2)` over the padded, viewport-clamped cutout dimensions; in
particular a cutout of width 20 and height 10 with padding 0 and requested
radius 100 emits arcs of radius 5. -/
theorem c2_effective_radius_clamped :
    (∀ (viewportW viewportH padding radius : ℚ) (rect : Rect),
      effectiveRadius radius (cutoutWidth viewportW padding rect)
          (cutoutHeight viewportH padding rect) =
        clampSpec radius 0
          (min (cutoutWidth viewportW padding rect)
              (cutoutHeight viewportH padding rect) / 2)) ∧
    (showOverlay 1024 768 initialOverlay ⟨100, 100, 20, 10⟩
        ⟨some 0, some 100, none, none, none, none⟩).path =
      "M1024,0 L0,0 L0,768 L1024,768 L1024,0 Z" ++ " " ++
      "M105,100 h10 a5,5 0 0 1 5,5 v0 a5,5 0 0 1 -5,5 h-10 a5,5 0 0 1 -5,-5 v-0 a5,5 0 0 1 5,-5 Z" := by
  constructor
  · intro vw vh p radius rect
    have hw : (0 : ℚ) ≤ cutoutWidth vw p rect := le_max_left _ _
    have hh : (0 : ℚ) ≤ cutoutHeight vh p rect := le_max_left _ _
    set w := cutoutWidth vw p rect with hw_def
    set h := cutoutHeight vh p rect with hh_def
    have hmin : min (w / 2) (h / 2) = min w h / 2 := by
      rcases le_total w h with hle | hle
      · rw [min_eq_left (by linarith), min_eq_left hle]
      · rw [min_eq_right (by linarith), min_eq_right hle]
    have hm : (0 : ℚ) ≤ min w h / 2 :=
      div_nonneg (le_min hw hh) (by norm_num)
    unfold effectiveRadius clampSpec
    rw [hmin]
    rcases le_total radius 0 with hr | hr
    · rw [min_eq_left (hr.trans hm), max_eq_left hr, max_eq_right hr,
        min_eq_left hm]
    · rw [max_eq_right (le_min hr hm), max_eq_left hr]
  · with_unfolding_all rfl

/-- Claim C3 as frozen is falsified by the code: for target rectangle
(x 2000, y 0, width 10, height 10), padding 0 and viewport 1024×768 the
computed cutout has origin x = 2000 and clamped width 0, so
x + width = 2000 exceeds the viewport width 1024. -/
theorem c3_counterexample :
    ¬ (cutoutX 0 ⟨2000, 0, 10, 10⟩ +
        cutoutWidth 1024 0 ⟨2000, 0, 10, 10⟩ ≤ 1024) := by
  with_unfolding_all decide

/-- Claim C3 amended: the cutout origin is never negative, and whenever the
clamped width (resp. height) is positive its far edge stays inside the
viewport — for a target past the far viewport edge the clamped dimension is 0
and the origin itself lies beyond the viewport; and whenever the clamped
width or height is zero or negative the generator yields the empty path. -/
theorem c3_cutout_clamped :
    ∀ (viewportW viewportH padding : ℚ) (rect : Rect),
      0 ≤ cutoutX padding rect ∧
      0 ≤ cutoutY padding rect ∧
      (0 < cutoutWidth viewportW padding rect →
        cutoutX padding rect + cutoutWidth viewportW padding rect ≤ viewportW) ∧
      (0 < cutoutHeight viewportH padding rect →
        cutoutY padding rect + cutoutHeight viewportH padding rect ≤ viewportH) ∧
      (∀ (st : OverlayState) (options : OverlayOptions),
        (mergeOptions st.currentOptions options).padding = padding →
        (cutoutWidth viewportW padding rect ≤ 0 ∨
            cutoutHeight viewportH padding rect ≤ 0) →
        (calculatePath viewportW viewportH st (some rect) options).path = "") := by
  intro vw vh p rect
  refine ⟨le_max_left _ _, le_max_left _ _, ?_, ?_, ?_⟩
  · intro hpos
    unfold cutoutWidth at hpos ⊢
    rcases le_total (min (rect.width + p * 2) (vw - cutoutX p rect)) 0 with hle | hle
    · rw [max_eq_left hle] at hpos
      exact absurd hpos (lt_irrefl 0)
    · rw [max_eq_right hle]
      have := min_le_right (rect.width + p * 2) (vw - cutoutX p rect)
      linarith
  · intro hpos
    unfold cutoutHeight at hpos ⊢
    rcases le_total (min (rect.height + p * 2) (vh - cutoutY p rect)) 0 with hle | hle
    · rw [max_eq_left hle] at hpos
      exact absurd hpos (lt_irrefl 0)
    · rw [max_eq_right hle]
      have := min_le_right (rect.height + p * 2) (vh - cutoutY p rect)
      linarith
  · intro st options hpad hdeg
    simp only [calculatePath]
    rw [hpad, if_pos hdeg]

/-- Witness for the amended claim C3: the default show rectangle keeps its
far edge inside the viewport, and a rectangle scrolled far below the
viewport produces the empty path. -/
theorem c3_witness :
    cutoutX 8 ⟨100, 100, 200, 50⟩ + cutoutWidth 1024 8 ⟨100, 100, 200, 50⟩ ≤ 1024 ∧
    (calculatePath 1024 768 initialOverlay (some ⟨100, 2000, 200, 50⟩) noOpts).path = "" := by
  constructor
  · exact (c3_cutout_clamped 1024 768 8 ⟨100, 100, 200, 50⟩).2.2.1
      (by with_unfolding_all decide)
  · exact (c3_cutout_clamped 1024 768 8 ⟨100, 2000, 200, 50⟩).2.2.2.2
      initialOverlay noOpts (by with_unfolding_all rfl)
      (Or.inr (by with_unfolding_all decide))

/-- Claim C8 as frozen is falsified by the code: after `show` then `hide`,
`hide` has not cleared the stored path, so a `refresh` issued while invisible
leaves the path at its previous non-empty value rather than empty. -/
theorem c8_counterexample :
    (refreshOverlay 1024 768
        (hideOverlay (showOverlay 1024 768 initialOverlay ⟨100, 100, 200, 50⟩ noOpts))
        ⟨200, 200, 200, 50⟩ noOpts).path ≠ "" := by
  with_unfolding_all decide

/-- Claim C8 amended: a `refresh` issued while the overlay is not visible
leaves the whole overlay state unchanged — the path is not regenerated, so it
stays empty exactly when it was already empty (as before any `show`), while
after `show` then `hide` the stale path merely stays stored; and a `refresh`
with the new rectangle (200,200,200,50) issued after `show` of
(100,100,200,50) regenerates the path and the new path differs from the old
one. -/
theorem c8_refresh_visibility :
    (∀ (viewportW viewportH : ℚ) (st : OverlayState) (rect : Rect)
        (options : OverlayOptions),
      st.isVisible = false →
        refreshOverlay viewportW viewportH st rect options = st) ∧
    ((refreshOverlay 1024 768
        (showOverlay 1024 768 initialOverlay ⟨100, 100, 200, 50⟩ noOpts)
        ⟨200, 200, 200, 50⟩ noOpts).path ≠
      (showOverlay 1024 768 initialOverlay ⟨100, 100, 200, 50⟩ noOpts).path) := by
  constructor
  · intro vw vh st rect options hvis
    simp [refreshOverlay, hvis]
  · with_unfolding_all decide

/-- Witness for the amended claim C8: on the freshly created overlay, which
is invisible with an empty path, `refresh` changes nothing. -/
theorem c8_witness :
    refreshOverlay 1024 768 initialOverlay ⟨200, 200, 200, 50⟩ noOpts = initialOverlay :=
  c8_refresh_visibility.1 1024 768 initialOverlay ⟨200, 200, 200, 50⟩ noOpts rfl

/-! ## Claims about the tour sequencer -/

/-- Claim C4: every step change performs, in this order: (1) the leaving
step's `onBeforeHide` if present, (2) the destination's `onBeforeShow` if
present, (3) the index commit, (4) the resolution of the destination's target
element and rectangle, (5) the leaving step's `onAfterHide`, (6) the
destination's `onAfterShow`, (7) the tour-level `onStepChange(step,
direction)`; and when the destination has `autoAdvance > 0` a deferred
`next()` is scheduled that is a no-op unless the status is still active and
the index still the committed one when it fires. -/
theorem c4_step_change_protocol :
    (∀ (opts : TourOptions) (st : TourState) (index : Int) (direction : Direction)
        (nextStep : TourStep),
      listGetInt opts.steps index = some nextStep →
      (setStep opts st index direction).2 =
        (match currentStep opts.steps st with
          | some p => if p.hasBeforeHide then [TourEvent.beforeHide p.id] else []
          | none => []) ++
        (if nextStep.hasBeforeShow then [TourEvent.beforeShow nextStep.id] else []) ++
        [TourEvent.commit index] ++ [TourEvent.resolve nextStep.id] ++
        (match currentStep opts.steps st with
          | some p => if p.hasAfterHide then [TourEvent.afterHide p.id] else []
          | none => []) ++
        (if nextStep.hasAfterShow then [TourEvent.afterShow nextStep.id] else []) ++
        (if opts.hasStepChange then [TourEvent.stepChange nextStep.id direction] else []) ++
        (match nextStep.autoAdvance with
          | some d => if 0 < d then [TourEvent.autoSchedule index d] else []
          | none => []) ∧
      (setStep opts st index direction).1 =
        updateTarget opts.steps { st with currentStepIndex := index }) ∧
    (∀ (opts : TourOptions) (st : TourState) (index : Int),
      st.status ≠ TourStatus.active ∨ st.currentStepIndex ≠ index →
      fireAutoAdvance opts st index = (st, [])) := by
  constructor
  · intro opts st index direction nextStep h
    rw [setStep_eq_of_some opts st index direction nextStep h]
    exact ⟨rfl, rfl⟩
  · intro opts st index h
    unfold fireAutoAdvance
    rw [if_neg (not_and_or.mpr h)]

/-- Witness for claim C4: from the initial state, stepping into the first
demo step (which has every callback and a 100 ms auto-advance) emits exactly
the protocol tail for an absent leaving step, and a stale auto-advance timer
does nothing on the idle initial state. -/
theorem c4_witness :
    (setStep demoOpts initialTour 0 Direction.next).2 =
      [TourEvent.beforeShow "step1", TourEvent.commit 0, TourEvent.resolve "step1",
        TourEvent.afterShow "step1", TourEvent.stepChange "step1" Direction.next,
        TourEvent.autoSchedule 0 100] ∧
    fireAutoAdvance demoOpts initialTour 0 = (initialTour, []) := by
  constructor
  · rw [(c4_step_change_protocol.1 demoOpts initialTour 0 Direction.next demoStep1 rfl).1]
    with_unfolding_all rfl
  · exact c4_step_change_protocol.2 demoOpts initialTour 0 (Or.inl (by decide))

/-- Claim C5: while active, `next()` on the last step completes the tour —
status `'completed'`, index reset to −1, target element and rectangle
cleared, `onComplete` fired — and `next()` on any earlier step increments the
index by exactly one. -/
theorem c5_next_semantics :
    ∀ (opts : TourOptions) (st : TourState),
      st.status = TourStatus.active →
      ((st.currentStepIndex = (opts.steps.length : Int) - 1 →
        (Tour.next opts st).1.status = TourStatus.completed ∧
        (Tour.next opts st).1.currentStepIndex = -1 ∧
        (Tour.next opts st).1.targetElement = none ∧
        (Tour.next opts st).1.targetRect = none ∧
        (opts.hasComplete = true → TourEvent.tourComplete ∈ (Tour.next opts st).2)) ∧
      (0 ≤ st.currentStepIndex →
        st.currentStepIndex < (opts.steps.length : Int) - 1 →
        (Tour.next opts st).1.currentStepIndex = st.currentStepIndex + 1)) := by
  intro opts st hact
  have hne : ¬(st.status ≠ TourStatus.active) := by simp [hact]
  constructor
  · intro hlast
    have hnext : Tour.next opts st = Tour.complete opts st := by
      unfold Tour.next
      rw [if_neg hne, if_pos (by simp [isLastStep, hlast])]
    rw [hnext]
    unfold Tour.complete
    refine ⟨rfl, rfl, rfl, rfl, ?_⟩
    intro hc
    simp [hc]
  · intro h0 hlt
    have hnotlast : ¬(isLastStep opts.steps st = true) := by
      simp only [isLastStep, decide_eq_true_eq]
      omega
    have hnext : Tour.next opts st =
        setStep opts st (st.currentStepIndex + 1) Direction.next := by
      unfold Tour.next
      rw [if_neg hne, if_neg hnotlast]
    rw [hnext]
    have hsome : (listGetInt opts.steps (st.currentStepIndex + 1)).isSome = true :=
      listGetInt_isSome _ _ (by omega) (by omega)
    rcases Option.isSome_iff_exists.mp hsome with ⟨nextStep, hstep⟩
    exact setStep_fst_index opts st (st.currentStepIndex + 1) Direction.next nextStep hstep

/-- Witness for claim C5: in the three-step demo tour, `next()` at index 2
completes and resets, and `next()` at index 0 moves to index 1. -/
theorem c5_witness :
    ((Tour.next demoOpts ⟨TourStatus.active, 2, none, none⟩).1.status =
        TourStatus.completed ∧
      (Tour.next demoOpts ⟨TourStatus.active, 2, none, none⟩).1.currentStepIndex = -1) ∧
    (Tour.next demoOpts demoActive).1.currentStepIndex = 0 + 1 := by
  constructor
  · have h := (c5_next_semantics demoOpts ⟨TourStatus.active, 2, none, none⟩ rfl).1
      (by decide)
    exact ⟨h.1, h.2.1⟩
  · exact (c5_next_semantics demoOpts demoActive rfl).2 (by decide) (by decide)

/-- Claim C6: while active, `goTo(id)` with an id matching no step leaves the
whole tour state unchanged (silent no-op); with a matching id it sets
`currentStepIndex` to that step's position (the `findIndex` result), and the
direction reported to `onStepChange` is `'next'` exactly when the destination
index is strictly greater than the prior index, `'previous'` otherwise. -/
theorem c6_goTo_semantics :
    ∀ (opts : TourOptions) (st : TourState) (s : String),
      st.status = TourStatus.active →
      ((∀ step ∈ opts.steps, step.id ≠ s) →
        Tour.goTo opts st (Tour.StepRef.id s) = (st, [])) ∧
      (∀ n : Int,
        Tour.findIndexAux (Tour.matchesId s) opts.steps = n → n ≠ -1 →
        (Tour.goTo opts st (Tour.StepRef.id s)).1.currentStepIndex = n ∧
        (∀ nextStep, listGetInt opts.steps n = some nextStep →
          opts.hasStepChange = true →
          TourEvent.stepChange nextStep.id
              (if st.currentStepIndex < n then Direction.next else Direction.previous) ∈
            (Tour.goTo opts st (Tour.StepRef.id s)).2)) := by
  intro opts st s hact
  have hne : ¬(st.status ≠ TourStatus.active) := by simp [hact]
  constructor
  · intro habs
    have hfi : Tour.findIndexAux (Tour.matchesId s) opts.steps = -1 :=
      findIndexAux_eq_neg_one _ _ (fun t ht => by
        simp [Tour.matchesId, habs t ht])
    unfold Tour.goTo
    rw [if_neg hne]
    dsimp only
    rw [if_pos hfi]
  · intro n hfi hn
    have hrange : 0 ≤ n ∧ n < (opts.steps.length : Int) := by
      rcases findIndexAux_range (Tour.matchesId s) opts.steps with h | h
      · rw [hfi] at h
        exact absurd h hn
      · rw [hfi] at h
        exact h
    have hgo : Tour.goTo opts st (Tour.StepRef.id s) =
        setStep opts st n
          (if st.currentStepIndex < n then Direction.next else Direction.previous) := by
      unfold Tour.goTo
      rw [if_neg hne]
      dsimp only
      rw [hfi, if_neg hn]
      dsimp only
      rw [if_pos hrange]
    obtain ⟨nextStep0, hstep0⟩ :=
      Option.isSome_iff_exists.mp (listGetInt_isSome _ _ hrange.1 hrange.2)
    constructor
    · rw [hgo]
      exact setStep_fst_index _ _ _ _ nextStep0 hstep0
    · intro nextStep hstep hsc
      rw [hgo, setStep_eq_of_some _ _ _ _ nextStep hstep]
      simp [hsc]

/-- Witness for claim C6: in the active demo tour, an unknown id changes
nothing and "step3" jumps to index 2 with direction next reported. -/
theorem c6_witness :
    Tour.goTo demoOpts demoActive (Tour.StepRef.id "nope") = (demoActive, []) ∧
    (Tour.goTo demoOpts demoActive (Tour.StepRef.id "step3")).1.currentStepIndex = 2 ∧
    TourEvent.stepChange "step3"
        (if demoActive.currentStepIndex < 2 then Direction.next else Direction.previous) ∈
      (Tour.goTo demoOpts demoActive (Tour.StepRef.id "step3")).2 := by
  have h2 := (c6_goTo_semantics demoOpts demoActive "step3" rfl).2 2
    (by with_unfolding_all rfl) (by decide)
  refine ⟨(c6_goTo_semantics demoOpts demoActive "nope" rfl).1 (by decide), h2.1, ?_⟩
  exact h2.2 demoStep3 (by with_unfolding_all rfl) rfl

/-- Claim C9: in every state reachable by the public operations,
`currentStep` is non-null exactly when `0 ≤ currentStepIndex < totalSteps`,
and a stored target rectangle implies a stored target element. -/
theorem c9_state_invariant :
    ∀ (opts : TourOptions) (st : TourState), Reachable opts st →
      ((currentStep opts.steps st).isSome = true ↔
        0 ≤ st.currentStepIndex ∧
          st.currentStepIndex < (opts.steps.length : Int)) ∧
      (st.targetRect.isSome = true → st.targetElement.isSome = true) :=
  fun opts st h =>
    ⟨currentStep_isSome_iff opts.steps st, reachable_targetInv opts st h⟩

/-- Witness for claim C9: the initial state of the demo tour satisfies both
invariants. -/
theorem c9_witness :
    ((currentStep demoOpts.steps initialTour).isSome = true ↔
      0 ≤ initialTour.currentStepIndex ∧
        initialTour.currentStepIndex < (demoOpts.steps.length : Int)) ∧
    (initialTour.targetRect.isSome = true → initialTour.targetElement.isSome = true) :=
  c9_state_invariant demoOpts initialTour Reachable.init

/-- Claim C7: `start()` with an empty step list is a no-op and the status
stays `'idle'`; with a non-empty step list `start()` at the default index
yields status `'active'`, index 0, `isFirstStep` true, and `isLastStep` true
exactly when there is a single step. -/
theorem c7_start_semantics :
    ∀ (opts : TourOptions) (st : TourState),
      (opts.steps = [] →
        Tour.start opts st 0 = (st, []) ∧
        (st.status = TourStatus.idle →
          (Tour.start opts st 0).1.status = TourStatus.idle)) ∧
      (opts.steps ≠ [] →
        (Tour.start opts st 0).1.status = TourStatus.active ∧
        (Tour.start opts st 0).1.currentStepIndex = 0 ∧
        isFirstStep (Tour.start opts st 0).1 = true ∧
        (isLastStep opts.steps (Tour.start opts st 0).1 = true ↔
          opts.steps.length = 1)) := by
  intro opts st
  constructor
  · intro hempty
    have hz : Tour.start opts st 0 = (st, []) := by
      unfold Tour.start
      rw [if_pos (by simp [hempty])]
    refine ⟨hz, ?_⟩
    intro hidle
    rw [hz]
    exact hidle
  · intro hne
    have hlen : opts.steps.length ≠ 0 := by
      simpa using hne
    have hfst : (Tour.start opts st 0).1 =
        (setStep opts { st with status := TourStatus.active } 0 Direction.next).1 := by
      unfold Tour.start
      rw [if_neg hlen]
    have hsome : (listGetInt opts.steps 0).isSome = true :=
      listGetInt_isSome _ _ le_rfl (by omega)
    rcases Option.isSome_iff_exists.mp hsome with ⟨nextStep, hstep⟩
    have hidx : (Tour.start opts st 0).1.currentStepIndex = 0 := by
      rw [hfst]
      exact setStep_fst_index _ _ _ _ nextStep hstep
    have hstat : (Tour.start opts st 0).1.status = TourStatus.active := by
      rw [hfst, setStep_fst_status]
    refine ⟨hstat, hidx, ?_, ?_⟩
    · simp [isFirstStep, hidx]
    · simp only [isLastStep, hidx, decide_eq_true_eq]
      omega

/-- Witness for claim C7: starting the empty tour changes nothing; starting
the three-step demo tour lands active on index 0. -/
theorem c7_witness :
    Tour.start emptyOpts initialTour 0 = (initialTour, []) ∧
    (Tour.start demoOpts initialTour 0).1.status = TourStatus.active ∧
    (Tour.start demoOpts initialTour 0).1.currentStepIndex = 0 := by
  refine ⟨((c7_start_semantics emptyOpts initialTour).1 rfl).1, ?_, ?_⟩
  · exact ((c7_start_semantics demoOpts initialTour).2 (by decide)).1
  · exact ((c7_start_semantics demoOpts initialTour).2 (by decide)).2.1

/-- Claim C10 (implicit): `start(stepIndex)` with an out-of-range index on a
non-empty step list still sets the status to `'active'` and still fires
`onStart`, while `currentStepIndex` stays −1 and `currentStep` stays null —
the tour can be active with no current step. -/
theorem c10_start_out_of_range :
    ∀ (opts : TourOptions) (st : TourState) (index : Int),
      opts.steps ≠ [] →
      (index < 0 ∨ (opts.steps.length : Int) ≤ index) →
      st.currentStepIndex = -1 →
      (Tour.start opts st index).1.status = TourStatus.active ∧
      (opts.hasStart = true → TourEvent.tourStart ∈ (Tour.start opts st index).2) ∧
      (Tour.start opts st index).1.currentStepIndex = -1 ∧
      currentStep opts.steps (Tour.start opts st index).1 = none := by
  intro opts st index hne hoob hidx
  have hlen : opts.steps.length ≠ 0 := by
    simpa using hne
  have hnone : listGetInt opts.steps index = none :=
    listGetInt_eq_none _ _ hoob
  have hstart : Tour.start opts st index =
      ({ st with status := TourStatus.active },
        [] ++ if opts.hasStart then [TourEvent.tourStart] else []) := by
    unfold Tour.start
    rw [if_neg hlen]
    simp only [setStep_of_none opts { st with status := TourStatus.active } index
      Direction.next hnone]
  rw [hstart]
  refine ⟨rfl, ?_, hidx, ?_⟩
  · intro hs
    simp [hs]
  · unfold currentStep
    rw [if_neg (by simp [hidx])]

/-- Witness for claim C10: starting the three-step demo tour at index 5
leaves it active with no current step, and `onStart` still fires. -/
theorem c10_witness :
    (Tour.start demoOpts initialTour 5).1.status = TourStatus.active ∧
    (Tour.start demoOpts initialTour 5).1.currentStepIndex = -1 ∧
    TourEvent.tourStart ∈ (Tour.start demoOpts initialTour 5).2 := by
  have h := c10_start_out_of_range demoOpts initialTour 5 (by decide)
    (Or.inr (by decide)) rfl
  exact ⟨h.1, h.2.2.1, h.2.1 rfl⟩

end Sherpa
